import Mathlib

/-!
Verification development for `prepare_misp_object.py` (r2graphity).

The Python module builds MISP "objects" (records) for a file, its PE
structure and its PE sections.  The shallow embedding below translates the
module's data flow into Lean:

* Python dictionaries holding attribute values become association lists
  `List (String × AttrValue)`; an inner dictionary such as
  `{'value': v, 'data': d, ...}` becomes the structure `AttrValue`, where
  `Option` models the behaviour of `dict.get` (absent key and key bound to
  `None` are read identically by the code, always through `.get`).
* The loaded JSON object definition becomes `ObjectDefinition`.
* Raised exceptions (`InvalidMISPObject`, `KeyError`, `pefile.PEFormatError`,
  `AttributeError`) become the `Except PyErr` monad.
* External collaborators (hashlib digests, pydeep, magic, os.path, pymisp's
  attribute rendering, the pefile parser and `uuid.uuid4`) are modelled as
  inputs: a bundle `Externals` of pure functions, a parsed-image model
  `PEFileModel`, and explicitly supplied uuid strings.
* In-place mutation of the caller's `values` dictionaries by `_fill_object`
  is made explicit: the embedded function returns the mutated mapping next
  to the produced record.
-/

namespace R2Graphity

/-- Python values that the module stores in the `value`/`data` slots of an
attribute dictionary: strings, non-negative integers, floats (modelled as
real numbers) and byte buffers. -/
inductive PyVal where
  | str (s : String)
  | nat (n : Nat)
  | real (r : ℝ)
  | bytes (b : List (Fin 256))

/-- One inner dictionary of the `values` mapping handed to `_fill_object`,
e.g. `{'value': self.md5}`.  Every slot is read by the code via `.get`, so
`Option.none` models both an absent key and a key bound to `None`. -/
structure AttrValue where
  value : Option PyVal
  data : Option PyVal
  disable_correlation : Option Bool
  to_ids : Option Bool
  type : Option String

/-- Per-attribute entry of the loaded object definition:
`definition['attributes'][k]` with its `misp-attribute` type and the
optional `disable_correlation` / `to_ids` defaults. -/
structure AttrDef where
  misp_attribute : String
  disable_correlation : Option Bool
  to_ids : Option Bool

/-- The JSON object definition loaded in `MISPObjectGenerator.__init__`.
`requiredOneOf`/`required` model `definition.get(...)`: the empty list
stands for an absent key (Python treats both as falsy). -/
structure ObjectDefinition where
  name : String
  meta_category : String
  description : String
  version : String
  attributes : List (String × AttrDef)
  requiredOneOf : List String
  required : List String

/-- Exceptions raised by the module or its libraries. -/
inductive PyErr where
  | invalidMISPObject (msg : String)
  | keyError (key : String)
  | peFormatError
  | attributeError (name : String)

/-- The record dictionary produced by `_fill_object`.  The
`ObjectReference` key is only written when the generator has links, hence
the `Option`. -/
structure MispRecord where
  name : String
  meta_category : String
  uuid : String
  description : String
  version : String
  objectAttribute : List (String × AttrValue)
  objectReference : Option (List (String × Option String))

/-- Mutable state shared by every generator (`MISPObjectGenerator`):
the loaded definition, the uuid drawn once in `__init__`, and the
accumulated `self.links`. -/
structure GenState where
  definition : ObjectDefinition
  uuid : String
  links : List (String × Option String)

/-- `MISPObjectGenerator.add_link`. -/
def GenState.add_link (st : GenState) (uuid : String) (comment : Option String) :
    GenState :=
  { st with links := st.links ++ [(uuid, comment)] }

/-- `MISPObjectGenerator._validate`. -/
def validate (defn : ObjectDefinition) (dump : List (String × AttrValue)) :
    Except PyErr Bool :=
  let all_attribute_names := dump.map Prod.fst
  if (!defn.requiredOneOf.isEmpty) &&
      defn.requiredOneOf.all (fun k => !(all_attribute_names.contains k)) then
    .error (.invalidMISPObject
      ("At least one of the following attributes is required: " ++
        String.intercalate ", " defn.requiredOneOf))
  else
    match defn.required.find? (fun r => !(all_attribute_names.contains r)) with
    | some r => .error (.invalidMISPObject (r ++ " is required is required"))
    | none => .ok true

/-- `MISPObjectGenerator.__new_empty_object`. -/
def new_empty_object (defn : ObjectDefinition) (uuid : String) : MispRecord :=
  { name := defn.name, meta_category := defn.meta_category, uuid := uuid,
    description := defn.description, version := defn.version,
    objectAttribute := [], objectReference := none }

/-- Body of the per-value step of `_fill_object`'s loop for a value whose
`value` slot is not `None`: look up the attribute type (a missing key
raises `KeyError`), then fill `type`, `disable_correlation` and `to_ids`
into the caller's inner dictionary. -/
def process_value (defn : ObjectDefinition) (object_type : String)
    (value : AttrValue) : Except PyErr AttrValue :=
  match defn.attributes.lookup object_type with
  | none => .error (.keyError object_type)
  | some ad =>
    let v := { value with type := some ad.misp_attribute }
    let v := match v.disable_correlation with
      | none => { v with disable_correlation := ad.disable_correlation }
      | some b => { v with disable_correlation := some b }
    let v := match v.to_ids with
      | none => { v with to_ids := ad.to_ids }
      | some b => { v with to_ids := some b }
    .ok v

/-- The `for object_type, value in values.items()` loop of `_fill_object`:
returns the accumulated `ObjectAttribute` entries and the final state of
the caller's (mutated in place) `values` mapping. -/
def fill_loop (defn : ObjectDefinition) :
    List (String × AttrValue) →
    Except PyErr (List (String × AttrValue) × List (String × AttrValue))
  | [] => .ok ([], [])
  | (object_type, value) :: rest =>
    if value.value.isNone then
      match fill_loop defn rest with
      | .error e => .error e
      | .ok (attrs, vals) => .ok (attrs, (object_type, value) :: vals)
    else
      match process_value defn object_type value with
      | .error e => .error e
      | .ok v =>
        match fill_loop defn rest with
        | .error e => .error e
        | .ok (attrs, vals) =>
          .ok ((object_type, v) :: attrs, (object_type, v) :: vals)

/-- `_fill_object` without the strict-validation prologue: build the empty
shell, write `ObjectReference` when links exist, then run the loop. -/
def fill_object_core (defn : ObjectDefinition) (uuid : String)
    (links : List (String × Option String)) (values : List (String × AttrValue)) :
    Except PyErr (MispRecord × List (String × AttrValue)) :=
  let empty_object := new_empty_object defn uuid
  let empty_object :=
    if links.isEmpty then empty_object
    else { empty_object with objectReference := some links }
  match fill_loop defn values with
  | .error e => .error e
  | .ok (attrs, vals) => .ok ({ empty_object with objectAttribute := attrs }, vals)

/-- `MISPObjectGenerator._fill_object`.  The produced record is returned
together with the final (mutated) `values` mapping. -/
def fill_object (defn : ObjectDefinition) (uuid : String)
    (links : List (String × Option String)) (values : List (String × AttrValue))
    (strict : Bool) : Except PyErr (MispRecord × List (String × AttrValue)) :=
  if strict then
    match validate defn values with
    | .error e => .error e
    | .ok _ => fill_object_core defn uuid links values
  else fill_object_core defn uuid links values

/-- The record component of `_fill_object`'s result (Python callers only
see the returned record; the mutation acts on their own dictionary). -/
def fill_record (defn : ObjectDefinition) (uuid : String)
    (links : List (String × Option String)) (values : List (String × AttrValue))
    (strict : Bool) : Except PyErr MispRecord :=
  Except.map Prod.fst (fill_object defn uuid links values strict)

/-- External pure collaborators used by the generators: the hashlib
digests, pydeep's fuzzy hash, libmagic's type sniffing and
`os.path.basename`, all functions of the raw bytes / path. -/
structure Externals where
  md5 : List (Fin 256) → String
  sha1 : List (Fin 256) → String
  sha256 : List (Fin 256) → String
  sha512 : List (Fin 256) → String
  ssdeep : List (Fin 256) → String
  magic : List (Fin 256) → String
  basename : String → String

/-- Shannon entropy, `FileObject.__entropy_H`: the occurrence counter over
the byte values of `data` drives `entropy -= p_x * log(p_x, 2)`. -/
noncomputable def entropy_H (data : List (Fin 256)) : ℝ :=
  if data.length = 0 then 0
  else ∑ x in data.toFinset,
    -(((data.count x : ℝ) / (data.length : ℝ)) *
      Real.logb 2 ((data.count x : ℝ) / (data.length : ℝ)))

/-- State of a `FileObject` after `__init__`/`generate_attributes`: the
hash, type and entropy fields are only set when the file is non-empty. -/
structure FileState where
  gen : GenState
  filepath : String
  data : List (Fin 256)
  filename : String
  size : Nat
  filetype : Option String
  entropy : Option ℝ
  md5 : Option String
  sha1 : Option String
  sha256 : Option String
  sha512 : Option String
  ssdeep : Option String

/-- `FileObject.__init__` plus `FileObject.generate_attributes`.  The file
definition, the fresh uuid and the file's bytes are inputs (file I/O and
`uuid.uuid4` are external); `self.size` is the byte count read. -/
noncomputable def FileObject.mk (ext : Externals) (defn : ObjectDefinition)
    (uuid : String) (filepath : String) (data : List (Fin 256)) : FileState :=
  let size := data.length
  { gen := { definition := defn, uuid := uuid, links := [] },
    filepath := filepath, data := data,
    filename := ext.basename filepath, size := size,
    filetype := if size > 0 then some (ext.magic data) else none,
    entropy := if size > 0 then some (entropy_H data) else none,
    md5 := if size > 0 then some (ext.md5 data) else none,
    sha1 := if size > 0 then some (ext.sha1 data) else none,
    sha256 := if size > 0 then some (ext.sha256 data) else none,
    sha512 := if size > 0 then some (ext.sha512 data) else none,
    ssdeep := if size > 0 then some (ext.ssdeep data) else none }

/-- An inner dictionary holding only a `value` slot. -/
def onlyValue (v : Option PyVal) : AttrValue :=
  { value := v, data := none, disable_correlation := none, to_ids := none,
    type := none }

/-- The `values` mapping built by `FileObject.dump`, in source order. -/
noncomputable def FileObject.values (st : FileState) : List (String × AttrValue) :=
  [("filename", onlyValue (some (.str st.filename))),
   ("size-in-bytes", onlyValue (some (.nat st.size)))] ++
  (if st.size > 0 then
    [("entropy", onlyValue (st.entropy.map PyVal.real)),
     ("ssdeep", onlyValue (st.ssdeep.map PyVal.str)),
     ("sha512", onlyValue (st.sha512.map PyVal.str)),
     ("md5", onlyValue (st.md5.map PyVal.str)),
     ("sha1", onlyValue (st.sha1.map PyVal.str)),
     ("sha256", onlyValue (st.sha256.map PyVal.str)),
     ("malware-sample",
       { value := st.md5.map (fun m => .str (st.filename ++ "|" ++ m)),
         data := some (.bytes st.data), disable_correlation := none,
         to_ids := none, type := none })]
   else [])

/-- `FileObject.dump`. -/
noncomputable def FileObject.dump (st : FileState) : Except PyErr MispRecord :=
  fill_record st.gen.definition st.gen.uuid st.gen.links (FileObject.values st) true

/-- One entry of `pe.dump_dict()['PE Sections']`, restricted to the fields
the module reads. -/
structure PEDumpSection where
  name : String
  sizeOfRawData : Nat
  virtualAddress : Nat
  miscVirtualSize : Nat
  entropy : ℝ
  md5 : String
  sha1 : String
  sha256 : String
  sha512 : String

/-- The `all_data['File Info'][1]` dictionary: every field is read with
`.get`, so each is optional. -/
structure PEFileInfo where
  originalFilename : Option String
  internalName : Option String
  fileDescription : Option String
  fileVersion : Option String
  langID : Option String
  productName : Option String
  productVersion : Option String
  companyName : Option String
  legalCopyright : Option String

/-- The slice of `pe.dump_dict()` the module reads.  The guarded lookup
chains (`Debug information`, `OPTIONAL_HEADER`/`AddressOfEntryPoint`,
`File Info`) are modelled by `Option` fields. -/
structure PEDumpData where
  debugTimeDateStampISO : Option String
  addressOfEntryPoint : Option Nat
  fileInfo : Option PEFileInfo
  peSections : List PEDumpSection

/-- The parsed `pefile.PE` object (external library boundary): capability
predicates, import hash, the dump dictionary and each section's raw bytes
(`self.pe.sections[pos].get_data()`; pefile keeps `sections` aligned with
the dump's `PE Sections`, so positional lookup is total). -/
structure PEFileModel where
  is_dll : Bool
  is_driver : Bool
  is_exe : Bool
  imphash : String
  dumpDict : PEDumpData
  sectionData : List (List (Fin 256))

/-- State of a `PESectionObject` after construction. -/
structure SectionState where
  gen : GenState
  section_info : PEDumpSection
  data : List (Fin 256)
  name : String
  size : Nat
  entropy : Option ℝ
  md5 : Option String
  sha1 : Option String
  sha256 : Option String
  sha512 : Option String
  ssdeep : Option String

/-- `PESectionObject.__init__` plus `PESectionObject.generate_attributes`:
entropy and digests are copied from the parser's dump, the fuzzy hash is
recomputed, all only when the raw size is positive. -/
def PESectionObject.mk (ext : Externals) (defn : ObjectDefinition) (uuid : String)
    (section_info : PEDumpSection) (data : List (Fin 256)) : SectionState :=
  let size := section_info.sizeOfRawData
  { gen := { definition := defn, uuid := uuid, links := [] },
    section_info := section_info, data := data,
    name := section_info.name, size := size,
    entropy := if size > 0 then some section_info.entropy else none,
    md5 := if size > 0 then some section_info.md5 else none,
    sha1 := if size > 0 then some section_info.sha1 else none,
    sha256 := if size > 0 then some section_info.sha256 else none,
    sha512 := if size > 0 then some section_info.sha512 else none,
    ssdeep := if size > 0 then some (ext.ssdeep data) else none }

/-- The `values` mapping built by `PESectionObject.dump`, in source order. -/
def PESectionObject.values (st : SectionState) : List (String × AttrValue) :=
  [("name", onlyValue (some (.str st.name))),
   ("size-in-bytes", onlyValue (some (.nat st.size)))] ++
  (if st.size > 0 then
    [("entropy", onlyValue (st.entropy.map PyVal.real)),
     ("md5", onlyValue (st.md5.map PyVal.str)),
     ("sha1", onlyValue (st.sha1.map PyVal.str)),
     ("sha256", onlyValue (st.sha256.map PyVal.str)),
     ("sha512", onlyValue (st.sha512.map PyVal.str)),
     ("ssdeep", onlyValue (st.ssdeep.map PyVal.str))]
   else [])

/-- `PESectionObject.dump`. -/
def PESectionObject.dump (st : SectionState) : Except PyErr MispRecord :=
  fill_record st.gen.definition st.gen.uuid st.gen.links (PESectionObject.values st) true

/-- State of a `PEObject` after construction.  Fields guarded by `hasattr`
in `dump` are `Option`; the version-resource fields carry a second
`Option` because `File Info` values are themselves read with `.get`. -/
structure PEState where
  gen : GenState
  pe_type : String
  imphash : Option String
  compilation_timestamp : Option String
  entrypoint_address : Option Nat
  entrypoint_section : Option (String × Nat)
  original_filename : Option (Option String)
  internal_filename : Option (Option String)
  file_description : Option (Option String)
  file_version : Option (Option String)
  lang_id : Option (Option String)
  product_name : Option (Option String)
  product_version : Option (Option String)
  company_name : Option (Option String)
  legal_copyright : Option (Option String)
  sections : List SectionState
  nb_sections : Nat

/-- The `for s in all_data['PE Sections']` loop of
`PEObject.generate_attributes`: constructs a `PESectionObject` per entry,
appends the `Section {pos} of PE` link, and tests the entry point against
the section's virtual range.  Reading `self.entrypoint_address` when that
attribute was never assigned raises `AttributeError`.  The last matching
section wins the `entrypoint_section` assignment. -/
def pe_section_loop (ext : Externals) (secDefn : ObjectDefinition)
    (secUuid : Nat → String) (sectionData : List (List (Fin 256)))
    (epAddr : Option Nat) :
    List PEDumpSection → Nat →
    Except PyErr (List SectionState × List (String × Option String) ×
      Option (String × Nat))
  | [], _ => .ok ([], [], none)
  | s :: rest, pos =>
    let sec := PESectionObject.mk ext secDefn (secUuid pos) s (sectionData.getD pos [])
    let link := (sec.gen.uuid, some ("Section " ++ toString pos ++ " of PE"))
    match epAddr with
    | none => .error (.attributeError "entrypoint_address")
    | some ea =>
      let epHere :=
        if ea ≥ s.virtualAddress ∧ ea < s.virtualAddress + s.miscVirtualSize then
          some (s.name, pos)
        else none
      match pe_section_loop ext secDefn secUuid sectionData epAddr rest (pos + 1) with
      | .error e => .error e
      | .ok (secs, links, epRest) =>
        .ok (sec :: secs, link :: links, epRest.orElse (fun _ => epHere))

/-- `PEObject.generate_attributes`. -/
def PEObject.generate_attributes (ext : Externals) (peDefn secDefn : ObjectDefinition)
    (uuid : String) (secUuid : Nat → String) (pe : PEFileModel) :
    Except PyErr PEState :=
  let pe_type :=
    if pe.is_dll then "dll"
    else if pe.is_driver then "driver"
    else if pe.is_exe then "exe"
    else "unknown"
  let all_data := pe.dumpDict
  match (if all_data.peSections.isEmpty then .ok ([], [], none)
         else pe_section_loop ext secDefn secUuid pe.sectionData
           all_data.addressOfEntryPoint all_data.peSections 0) with
  | .error e => .error e
  | .ok (secs, links, epSec) =>
    .ok { gen := { definition := peDefn, uuid := uuid, links := links },
          pe_type := pe_type,
          imphash := some pe.imphash,
          compilation_timestamp := all_data.debugTimeDateStampISO,
          entrypoint_address := all_data.addressOfEntryPoint,
          entrypoint_section := epSec,
          original_filename := all_data.fileInfo.map (fun fi => fi.originalFilename),
          internal_filename := all_data.fileInfo.map (fun fi => fi.internalName),
          file_description := all_data.fileInfo.map (fun fi => fi.fileDescription),
          file_version := all_data.fileInfo.map (fun fi => fi.fileVersion),
          lang_id := all_data.fileInfo.map (fun fi => fi.langID),
          product_name := all_data.fileInfo.map (fun fi => fi.productName),
          product_version := all_data.fileInfo.map (fun fi => fi.productVersion),
          company_name := all_data.fileInfo.map (fun fi => fi.companyName),
          legal_copyright := all_data.fileInfo.map (fun fi => fi.legalCopyright),
          sections := secs,
          nb_sections := secs.length }

/-- `PEObject.__init__`: `pefile.PE(data=...)` either raises
`PEFormatError` (modelled by `parse = none`) or yields the parsed image,
after which `generate_attributes` runs. -/
def PEObject.mk (ext : Externals) (peDefn secDefn : ObjectDefinition)
    (uuid : String) (secUuid : Nat → String) (parse : Option PEFileModel) :
    Except PyErr PEState :=
  match parse with
  | none => .error .peFormatError
  | some pe => PEObject.generate_attributes ext peDefn secDefn uuid secUuid pe

/-- An entry of `pe_object` guarded by `hasattr` in `PEObject.dump`. -/
def optEntry (k : String) (v : Option AttrValue) : List (String × AttrValue) :=
  match v with
  | none => []
  | some a => [(k, a)]

/-- The `values` mapping built by `PEObject.dump`, in source order. -/
def PEObject.values (st : PEState) : List (String × AttrValue) :=
  [("type", onlyValue (some (.str st.pe_type)))] ++
  optEntry "imphash" (st.imphash.map (fun h => onlyValue (some (.str h)))) ++
  optEntry "original-filename"
    (st.original_filename.map (fun v => onlyValue (v.map PyVal.str))) ++
  optEntry "internal-filename"
    (st.internal_filename.map (fun v => onlyValue (v.map PyVal.str))) ++
  optEntry "compilation-timestamp"
    (st.compilation_timestamp.map (fun v => onlyValue (some (.str v)))) ++
  optEntry "entrypoint-section|position"
    (st.entrypoint_section.map
      (fun p => onlyValue (some (.str (p.1 ++ "|" ++ toString p.2))))) ++
  optEntry "entrypoint-address"
    (st.entrypoint_address.map (fun a => onlyValue (some (.nat a)))) ++
  optEntry "file-description"
    (st.file_description.map (fun v => onlyValue (v.map PyVal.str))) ++
  optEntry "file-version"
    (st.file_version.map (fun v => onlyValue (v.map PyVal.str))) ++
  optEntry "lang-id" (st.lang_id.map (fun v => onlyValue (v.map PyVal.str))) ++
  optEntry "product-name"
    (st.product_name.map (fun v => onlyValue (v.map PyVal.str))) ++
  optEntry "product-version"
    (st.product_version.map (fun v => onlyValue (v.map PyVal.str))) ++
  optEntry "company-name"
    (st.company_name.map (fun v => onlyValue (v.map PyVal.str))) ++
  [("number-sections", onlyValue (some (.nat st.nb_sections)))]

/-- `PEObject.dump`. -/
def PEObject.dump (st : PEState) : Except PyErr MispRecord :=
  fill_record st.gen.definition st.gen.uuid st.gen.links (PEObject.values st) true

/-- `misp_file.add_link` as called from `make_objects`. -/
def FileObject.add_link (st : FileState) (uuid : String) (comment : Option String) :
    FileState :=
  { st with gen := st.gen.add_link uuid comment }

/-- The `for s in misp_pe.sections: pe_sections.append(s.dump())` loop. -/
def dump_sections : List SectionState → Except PyErr (List MispRecord)
  | [] => .ok []
  | s :: rest =>
    match PESectionObject.dump s with
    | .error e => .error e
    | .ok r =>
      match dump_sections rest with
      | .error e => .error e
      | .ok rs => .ok (r :: rs)

/-- The `try:` block of `make_objects`: construct the PE object, link the
file to it, then dump all three tiers. -/
noncomputable def make_objects_try (ext : Externals) (peDefn secDefn : ObjectDefinition)
    (peUuid : String) (secUuid : Nat → String) (misp_file : FileState)
    (parse : Option PEFileModel) :
    Except PyErr (MispRecord × Option MispRecord × Option (List MispRecord)) :=
  match PEObject.mk ext peDefn secDefn peUuid secUuid parse with
  | .error e => .error e
  | .ok misp_pe =>
    let misp_file := FileObject.add_link misp_file misp_pe.gen.uuid (some "PE indicators")
    match FileObject.dump misp_file with
    | .error e => .error e
    | .ok file_object =>
      match PEObject.dump misp_pe with
      | .error e => .error e
      | .ok pe_object =>
        match dump_sections misp_pe.sections with
        | .error e => .error e
        | .ok pe_sections => .ok (file_object, some pe_object, some pe_sections)

/-- `make_objects`: only `pefile.PEFormatError` is caught; it triggers the
file-only fallback `return file_object, None, None`. -/
noncomputable def make_objects (ext : Externals)
    (fileDefn peDefn secDefn : ObjectDefinition) (fileUuid peUuid : String)
    (secUuid : Nat → String) (filepath : String) (data : List (Fin 256))
    (parse : Option PEFileModel) :
    Except PyErr (MispRecord × Option MispRecord × Option (List MispRecord)) :=
  let misp_file := FileObject.mk ext fileDefn fileUuid filepath data
  match make_objects_try ext peDefn secDefn peUuid secUuid misp_file parse with
  | .error .peFormatError =>
    (match FileObject.dump misp_file with
     | .error e => .error e
     | .ok file_object => .ok (file_object, none, none))
  | .error e => .error e
  | .ok r => .ok r

/-! ### Helper lemmas -/

theorem contains_eq_mem (l : List String) (a : String) :
    l.contains a = true ↔ a ∈ l := by
  simp

theorem find?_first {α : Type} (p : α → Bool) :
    ∀ (l1 : List α) (r : α) (l2 : List α),
    (∀ x ∈ l1, p x = false) → p r = true →
    (l1 ++ r :: l2).find? p = some r := by
  intro l1
  induction l1 with
  | nil =>
    intro r l2 _ hr
    simpa [List.find?_cons] using List.find?_cons_of_pos _ hr
  | cons x xs ih =>
    intro r l2 hl hr
    have hx : p x = false := hl x (by simp)
    rw [List.cons_append, List.find?_cons_of_neg _ (by simp [hx])]
    exact ih r l2 (fun y hy => hl y (by simp [hy])) hr

theorem validate_error_shape (defn : ObjectDefinition)
    (d : List (String × AttrValue)) (e : PyErr) (h : validate defn d = .error e) :
    ∃ m, e = .invalidMISPObject m := by
  simp only [validate] at h
  split at h
  · exact ⟨_, (by injection h with h; exact h.symm)⟩
  · split at h
    · exact ⟨_, (by injection h with h; exact h.symm)⟩
    · exact absurd h (by simp)

theorem process_value_error_shape (defn : ObjectDefinition) (k : String)
    (v : AttrValue) (e : PyErr) (h : process_value defn k v = .error e) :
    e = .keyError k := by
  simp only [process_value] at h
  split at h
  · injection h with h; exact h.symm
  · exact absurd h (by simp)

theorem process_value_ok (defn : ObjectDefinition) (k : String) (v v' : AttrValue)
    (h : process_value defn k v = .ok v') :
    ∃ ad, defn.attributes.lookup k = some ad ∧
      v'.value = v.value ∧ v'.data = v.data ∧
      v'.type = some ad.misp_attribute ∧
      v'.disable_correlation =
        (match v.disable_correlation with
         | none => ad.disable_correlation
         | some b => some b) ∧
      v'.to_ids =
        (match v.to_ids with
         | none => ad.to_ids
         | some b => some b) := by
  simp only [process_value] at h
  split at h
  · exact absurd h (by simp)
  · rename_i ad had
    refine ⟨ad, had, ?_⟩
    injection h with h
    subst h
    cases hdc : v.disable_correlation <;> cases hti : v.to_ids <;>
      simp [hdc, hti]

theorem fill_loop_error_shape (defn : ObjectDefinition) :
    ∀ (values : List (String × AttrValue)) (e : PyErr),
    fill_loop defn values = .error e → ∃ k, e = .keyError k := by
  intro values
  induction values with
  | nil => intro e h; simp [fill_loop] at h
  | cons kv rest ih =>
    intro e h
    obtain ⟨k, v⟩ := kv
    simp only [fill_loop] at h
    split at h
    · rcases hr : fill_loop defn rest with e' | pair
      · rw [hr] at h; injection h with h; exact h ▸ ih e' hr
      · obtain ⟨attrs, vals⟩ := pair; rw [hr] at h; exact absurd h (by simp)
    · rcases hp : process_value defn k v with e' | v'
      · rw [hp] at h; injection h with h
        exact ⟨k, h ▸ process_value_error_shape defn k v e' hp⟩
      · rw [hp] at h
        rcases hr : fill_loop defn rest with e' | pair
        · rw [hr] at h; injection h with h; exact h ▸ ih e' hr
        · obtain ⟨attrs, vals⟩ := pair; rw [hr] at h; exact absurd h (by simp)

theorem fill_object_core_error_shape (defn : ObjectDefinition) (uuid : String)
    (links : List (String × Option String)) (values : List (String × AttrValue))
    (e : PyErr) (h : fill_object_core defn uuid links values = .error e) :
    ∃ k, e = .keyError k := by
  simp only [fill_object_core] at h
  rcases hl : fill_loop defn values with e' | pair
  · rw [hl] at h; injection h with h; exact h ▸ fill_loop_error_shape defn values e' hl
  · obtain ⟨attrs, vals⟩ := pair; rw [hl] at h; exact absurd h (by simp)

theorem fill_object_core_ok_record (defn : ObjectDefinition) (uuid : String)
    (links : List (String × Option String)) (values : List (String × AttrValue))
    (rec : MispRecord) (vals : List (String × AttrValue))
    (h : fill_object_core defn uuid links values = .ok (rec, vals)) :
    fill_loop defn values = .ok (rec.objectAttribute, vals) ∧
    rec.name = defn.name ∧ rec.meta_category = defn.meta_category ∧
    rec.uuid = uuid ∧ rec.description = defn.description ∧
    rec.version = defn.version ∧
    rec.objectReference = (if links.isEmpty then none else some links) := by
  by_cases hL : links.isEmpty = true
  · simp only [fill_object_core, hL, if_true] at h
    rcases hl : fill_loop defn values with e' | ⟨attrs, vals'⟩ <;> rw [hl] at h
    · exact absurd h (by simp)
    · simp only [Except.ok.injEq, Prod.mk.injEq] at h
      obtain ⟨hrec, hvals⟩ := h
      subst hvals
      rw [← hrec]
      simp [new_empty_object, hl, hL]
  · simp only [fill_object_core, hL, if_false] at h
    rcases hl : fill_loop defn values with e' | ⟨attrs, vals'⟩ <;> rw [hl] at h
    · exact absurd h (by simp)
    · simp only [Except.ok.injEq, Prod.mk.injEq] at h
      obtain ⟨hrec, hvals⟩ := h
      subst hvals
      rw [← hrec]
      simp [new_empty_object, hl, hL]

theorem fill_object_ok_record (defn : ObjectDefinition) (uuid : String)
    (links : List (String × Option String)) (values : List (String × AttrValue))
    (strict : Bool) (rec : MispRecord) (vals : List (String × AttrValue))
    (h : fill_object defn uuid links values strict = .ok (rec, vals)) :
    fill_loop defn values = .ok (rec.objectAttribute, vals) ∧
    rec.name = defn.name ∧ rec.meta_category = defn.meta_category ∧
    rec.uuid = uuid ∧ rec.description = defn.description ∧
    rec.version = defn.version ∧
    rec.objectReference = (if links.isEmpty then none else some links) := by
  simp only [fill_object] at h
  split at h
  · split at h
    · exact absurd h (by simp)
    · exact fill_object_core_ok_record defn uuid links values rec vals h
  · exact fill_object_core_ok_record defn uuid links values rec vals h

/-! ### C1 -/

/-- C1: `_fill_object` in strict mode fails with `InvalidMISPObject`
exactly when `_validate` would fail on the same `values` mapping, and when
validation passes the strict and non-strict calls return the same
result. -/
theorem c1_strict_matches_validate (defn : ObjectDefinition) (uuid : String)
    (links : List (String × Option String)) (values : List (String × AttrValue)) :
    ((∃ m, fill_object defn uuid links values true = .error (.invalidMISPObject m)) ↔
      ∃ e, validate defn values = .error e) ∧
    (∀ b, validate defn values = .ok b →
      fill_object defn uuid links values true =
        fill_object defn uuid links values false) := by
  constructor
  · constructor
    · rintro ⟨m, hm⟩
      rcases hv : validate defn values with e | b
      · exact ⟨e, rfl⟩
      · simp only [fill_object, if_pos rfl, hv] at hm
        obtain ⟨k, hk⟩ := fill_object_core_error_shape defn uuid links values _ hm
        simp at hk
    · rintro ⟨e, he⟩
      obtain ⟨m, rfl⟩ := validate_error_shape defn values e he
      exact ⟨m, by simp [fill_object, he]⟩
  · intro b hb
    simp [fill_object, hb]

def c1defn : ObjectDefinition :=
  { name := "file", meta_category := "file", description := "d", version := "1",
    attributes := [("a", { misp_attribute := "text", disable_correlation := some true,
                           to_ids := some false })],
    requiredOneOf := [], required := [] }

def c1vals : List (String × AttrValue) := [("a", onlyValue (some (.str "x")))]

/-- C1 witness at a concrete definition and values mapping. -/
theorem c1_strict_matches_validate_witness :
    fill_object c1defn "u" [] c1vals true = fill_object c1defn "u" [] c1vals false :=
  (c1_strict_matches_validate c1defn "u" [] c1vals).2 true rfl

/-! ### C2 -/

def c2defn : ObjectDefinition :=
  { name := "file", meta_category := "file", description := "d", version := "1",
    attributes := [("a", { misp_attribute := "text", disable_correlation := none,
                           to_ids := none })],
    requiredOneOf := ["a"], required := [] }

def c2vals : List (String × AttrValue) := [("a", onlyValue none)]

/-- C2 counterexample: the schema declares `requiredOneOf = ["a"]` and the
only supplied `"a"` value is null, so no `requiredOneOf` key is present
with a non-null value — yet `_validate` succeeds, because the code tests
key presence only. -/
theorem c2_counterexample :
    validate c2defn c2vals = .ok true ∧
    c2defn.requiredOneOf ≠ [] ∧
    ¬ ∃ k ∈ c2defn.requiredOneOf, ∃ v, (k, v) ∈ c2vals ∧ v.value ≠ none := by
  refine ⟨rfl, by simp [c2defn], ?_⟩
  simp [c2defn, c2vals, onlyValue]

/-- C2 (amended): `_validate` enforces the two constraints, where the
`requiredOneOf` constraint demands only that one of the candidate keys be
present (its value may be null): if none is present the error message
lists the candidate set; otherwise, if some `required` key is missing, the
error names the first missing one; otherwise validation succeeds. -/
theorem c2_validate_characterization (defn : ObjectDefinition)
    (values : List (String × AttrValue)) :
    (defn.requiredOneOf ≠ [] →
      (∀ k ∈ defn.requiredOneOf, k ∉ values.map Prod.fst) →
      validate defn values = .error (.invalidMISPObject
        ("At least one of the following attributes is required: " ++
          String.intercalate ", " defn.requiredOneOf))) ∧
    ((defn.requiredOneOf = [] ∨ ∃ k ∈ defn.requiredOneOf, k ∈ values.map Prod.fst) →
      ∀ l1 r l2, defn.required = l1 ++ r :: l2 →
      (∀ x ∈ l1, x ∈ values.map Prod.fst) → r ∉ values.map Prod.fst →
      validate defn values = .error (.invalidMISPObject
        (r ++ " is required is required"))) ∧
    ((defn.requiredOneOf = [] ∨ ∃ k ∈ defn.requiredOneOf, k ∈ values.map Prod.fst) →
      (∀ r ∈ defn.required, r ∈ values.map Prod.fst) →
      validate defn values = .ok true) := by
  have hcond : ∀ (hOne : defn.requiredOneOf = [] ∨
      ∃ k ∈ defn.requiredOneOf, k ∈ values.map Prod.fst),
      ((!defn.requiredOneOf.isEmpty) &&
        defn.requiredOneOf.all
          (fun k => !((values.map Prod.fst).contains k))) = false := by
    rintro (hOne | ⟨k, hk, hmem⟩)
    · simp [hOne]
    · have hB : defn.requiredOneOf.all
          (fun k => !((values.map Prod.fst).contains k)) = false :=
        List.all_eq_false.mpr ⟨k, hk, by simp [hmem]⟩
      rw [hB, Bool.and_false]
  refine ⟨?_, ?_, ?_⟩
  · intro hne hnone
    have hctrue : ((!defn.requiredOneOf.isEmpty) &&
        defn.requiredOneOf.all
          (fun k => !((values.map Prod.fst).contains k))) = true := by
      rw [Bool.and_eq_true]
      constructor
      · simp [hne]
      · exact List.all_eq_true.mpr (fun k hk => by simp [hnone k hk])
    simp only [validate]
    rw [hctrue]
    simp
  · intro hOne l1 r l2 hreq hl1 hr
    have hfind : defn.required.find?
        (fun r => !((values.map Prod.fst).contains r)) = some r := by
      rw [hreq]
      exact find?_first _ l1 r l2 (fun x hx => by simp [hl1 x hx]) (by simp [hr])
    simp only [validate]
    rw [hfind, hcond hOne]
    simp
  · intro hOne hall
    have hfind : defn.required.find?
        (fun r => !((values.map Prod.fst).contains r)) = none := by
      rw [List.find?_eq_none]
      intro x hx
      simp [hall x hx]
    simp only [validate]
    rw [hfind, hcond hOne]
    simp

def c2okdefn : ObjectDefinition :=
  { name := "file", meta_category := "file", description := "d", version := "1",
    attributes := [("a", { misp_attribute := "text", disable_correlation := none,
                           to_ids := none })],
    requiredOneOf := ["a"], required := ["b"] }

/-- C2 witness: with `requiredOneOf = ["a"]` satisfied by a present key
and `required = ["b"]` unsatisfied, `_validate` fails naming `b`. -/
theorem c2_validate_characterization_witness :
    validate c2okdefn c2vals = .error (.invalidMISPObject ("b is required is required")) :=
  (c2_validate_characterization c2okdefn c2vals).2.1
    (Or.inr ⟨"a", by simp [c2okdefn], by simp [c2vals]⟩)
    [] "b" [] rfl (by simp) (by simp [c2vals])

/-! ### C3 -/

theorem fill_loop_ok_c3 (defn : ObjectDefinition) :
    ∀ (values attrs vals : List (String × AttrValue)),
    fill_loop defn values = .ok (attrs, vals) →
    attrs.map Prod.fst =
      (values.filter (fun kv => kv.2.value.isSome)).map Prod.fst ∧
    ∀ kv ∈ attrs, ∃ v, (kv.1, v) ∈ values ∧ v.value.isSome = true ∧
      kv.2.value = v.value := by
  intro values
  induction values with
  | nil =>
    intro attrs vals h
    simp only [fill_loop, Except.ok.injEq, Prod.mk.injEq] at h
    obtain ⟨h1, h2⟩ := h
    subst h1
    simp
  | cons kv rest ih =>
    intro attrs vals h
    obtain ⟨k, v⟩ := kv
    simp only [fill_loop] at h
    split at h
    · rename_i hn
      rcases hr : fill_loop defn rest with e | ⟨attrs', vals'⟩ <;> rw [hr] at h
      · exact absurd h (by simp)
      · simp only [Except.ok.injEq, Prod.mk.injEq] at h
        obtain ⟨h1, h2⟩ := h
        subst h1
        obtain ⟨ihk, ihm⟩ := ih attrs' vals' hr
        have hvn : v.value = none := Option.isNone_iff_eq_none.mp hn
        constructor
        · rw [List.filter_cons]
          simp only [hvn, Option.isSome_none, Bool.false_eq_true, if_false]
          exact ihk
        · intro a ha
          obtain ⟨w, hw, hws, hwv⟩ := ihm a ha
          exact ⟨w, by simp [hw], hws, hwv⟩
    · rename_i hn
      rcases hp : process_value defn k v with e | v' <;> rw [hp] at h
      · exact absurd h (by simp)
      · rcases hr : fill_loop defn rest with e | ⟨attrs', vals'⟩ <;> rw [hr] at h
        · exact absurd h (by simp)
        · simp only [Except.ok.injEq, Prod.mk.injEq] at h
          obtain ⟨h1, h2⟩ := h
          subst h1
          obtain ⟨ad, had, hval, hdata, htype, hdc, hti⟩ :=
            process_value_ok defn k v v' hp
          obtain ⟨ihk, ihm⟩ := ih attrs' vals' hr
          have hvs : v.value.isSome = true := by
            rcases hvv : v.value with _ | pv
            · exact absurd (by simp [hvv]) hn
            · simp
          constructor
          · rw [List.filter_cons]
            simp only [hvs, if_true]
            simp [ihk]
          · intro a ha
            rcases List.mem_cons.mp ha with rfl | ha'
            · exact ⟨v, by simp, hvs, by simp [hval]⟩
            · obtain ⟨w, hw, hws, hwv⟩ := ihm a ha'
              exact ⟨w, by simp [hw], hws, hwv⟩

/-- C3: a record produced by `_fill_object` contains one attribute per
input key whose inner `value` is non-null (in order), and each emitted
attribute carries exactly that non-null input value: null or absent values
are skipped, never emitted. -/
theorem c3_null_values_skipped (defn : ObjectDefinition) (uuid : String)
    (links : List (String × Option String)) (values : List (String × AttrValue))
    (strict : Bool) (rec : MispRecord) (vals : List (String × AttrValue))
    (h : fill_object defn uuid links values strict = .ok (rec, vals)) :
    rec.objectAttribute.map Prod.fst =
      (values.filter (fun kv => kv.2.value.isSome)).map Prod.fst ∧
    ∀ kv ∈ rec.objectAttribute, ∃ v, (kv.1, v) ∈ values ∧ v.value.isSome = true ∧
      kv.2.value = v.value :=
  fill_loop_ok_c3 defn values rec.objectAttribute vals
    (fill_object_ok_record defn uuid links values strict rec vals h).1

def c3defn : ObjectDefinition :=
  { name := "file", meta_category := "file", description := "d", version := "1",
    attributes := [("a", { misp_attribute := "text", disable_correlation := none,
                           to_ids := none })],
    requiredOneOf := [], required := [] }

def c3vals : List (String × AttrValue) :=
  [("a", onlyValue (some (.str "x"))), ("b", onlyValue none)]

def fallbackRecord : MispRecord :=
  { name := "", meta_category := "", uuid := "", description := "", version := "",
    objectAttribute := [], objectReference := none }

def c3run : Except PyErr (MispRecord × List (String × AttrValue)) :=
  fill_object c3defn "u" [] c3vals true

def c3rec : MispRecord :=
  match c3run with
  | .ok (r, _) => r
  | .error _ => fallbackRecord

def c3outvals : List (String × AttrValue) :=
  match c3run with
  | .ok (_, vs) => vs
  | .error _ => []

/-- C3 witness: with a null `"b"` value, only `"a"` is emitted. -/
theorem c3_null_values_skipped_witness :
    c3rec.objectAttribute.map Prod.fst = ["a"] := by
  have h := c3_null_values_skipped c3defn "u" [] c3vals true c3rec c3outvals rfl
  exact h.1.trans (by simp [c3vals, onlyValue])

/-! ### C10 -/

/-- Relation between an entry of the caller's `values` mapping before and
after `_fill_object`: entries with a null `value` are untouched, the
others receive `type` and the schema defaults for `disable_correlation`
and `to_ids` (kept when already set by the caller). -/
def mutatedRel (defn : ObjectDefinition) (kv kvm : String × AttrValue) : Prop :=
  kvm.1 = kv.1 ∧
  (kv.2.value = none → kvm = kv) ∧
  (kv.2.value ≠ none → ∃ ad, defn.attributes.lookup kv.1 = some ad ∧
    kvm.2.value = kv.2.value ∧ kvm.2.data = kv.2.data ∧
    kvm.2.type = some ad.misp_attribute ∧
    kvm.2.disable_correlation =
      (match kv.2.disable_correlation with
       | none => ad.disable_correlation
       | some b => some b) ∧
    kvm.2.to_ids =
      (match kv.2.to_ids with
       | none => ad.to_ids
       | some b => some b))

theorem fill_loop_ok_mutation (defn : ObjectDefinition) :
    ∀ (values attrs vals : List (String × AttrValue)),
    fill_loop defn values = .ok (attrs, vals) →
    List.Forall₂ (mutatedRel defn) values vals := by
  intro values
  induction values with
  | nil =>
    intro attrs vals h
    simp only [fill_loop, Except.ok.injEq, Prod.mk.injEq] at h
    obtain ⟨h1, h2⟩ := h
    subst h2
    exact List.Forall₂.nil
  | cons kv rest ih =>
    intro attrs vals h
    obtain ⟨k, v⟩ := kv
    simp only [fill_loop] at h
    split at h
    · rename_i hn
      rcases hr : fill_loop defn rest with e | ⟨attrs', vals'⟩ <;> rw [hr] at h
      · exact absurd h (by simp)
      · simp only [Except.ok.injEq, Prod.mk.injEq] at h
        obtain ⟨h1, h2⟩ := h
        subst h2
        have hvn : v.value = none := Option.isNone_iff_eq_none.mp hn
        exact List.Forall₂.cons
          ⟨rfl, fun _ => rfl, fun hcontra => absurd hvn hcontra⟩
          (ih attrs' vals' hr)
    · rename_i hn
      rcases hp : process_value defn k v with e | v' <;> rw [hp] at h
      · exact absurd h (by simp)
      · rcases hr : fill_loop defn rest with e | ⟨attrs', vals'⟩ <;> rw [hr] at h
        · exact absurd h (by simp)
        · simp only [Except.ok.injEq, Prod.mk.injEq] at h
          obtain ⟨h1, h2⟩ := h
          subst h2
          obtain ⟨ad, had, hval, hdata, htype, hdc, hti⟩ :=
            process_value_ok defn k v v' hp
          have hvn : v.value ≠ none := by
            intro hc
            exact hn (by simp [hc])
          exact List.Forall₂.cons
            ⟨rfl, fun hc => absurd hc hvn,
             fun _ => ⟨ad, had, hval, hdata, htype, hdc, hti⟩⟩
            (ih attrs' vals' hr)

/-- C10: `_fill_object` mutates the caller's `values` mapping in place —
each key with a non-null value receives a `type` entry and, when
`disable_correlation` / `to_ids` were absent, the schema's per-attribute
defaults; null-valued entries stay untouched. -/
theorem c10_values_mutated (defn : ObjectDefinition) (uuid : String)
    (links : List (String × Option String)) (values : List (String × AttrValue))
    (strict : Bool) (rec : MispRecord) (vals : List (String × AttrValue))
    (h : fill_object defn uuid links values strict = .ok (rec, vals)) :
    List.Forall₂ (mutatedRel defn) values vals :=
  fill_loop_ok_mutation defn values rec.objectAttribute vals
    (fill_object_ok_record defn uuid links values strict rec vals h).1

def c10defn : ObjectDefinition :=
  { name := "file", meta_category := "file", description := "d", version := "1",
    attributes := [("a", { misp_attribute := "text", disable_correlation := some true,
                           to_ids := some false })],
    requiredOneOf := [], required := [] }

def c10vals : List (String × AttrValue) := [("a", onlyValue (some (.str "x")))]

def c10run : Except PyErr (MispRecord × List (String × AttrValue)) :=
  fill_object c10defn "u" [] c10vals true

def c10outvals : List (String × AttrValue) :=
  match c10run with
  | .ok (_, vs) => vs
  | .error _ => []

/-- C10 witness: the returned mapping's `"a"` entry got `type` and the
schema defaults written, so it differs from the input entry. -/
theorem c10_values_mutated_witness :
    List.Forall₂ (mutatedRel c10defn) c10vals c10outvals ∧
    (c10vals.map (fun kv => kv.2.type)) = [none] ∧
    (c10outvals.map (fun kv => kv.2.type)) = [some "text"] := by
  refine ⟨?_, rfl, rfl⟩
  have h := c10run
  exact c10_values_mutated c10defn "u" [] c10vals true
    (match c10run with
     | .ok (r, _) => r
     | .error _ => fallbackRecord) c10outvals rfl

/-! ### C8 -/

def c8defn : ObjectDefinition :=
  { name := "pe", meta_category := "file", description := "d", version := "2",
    attributes := [("type", { misp_attribute := "text", disable_correlation := none,
                              to_ids := none })],
    requiredOneOf := [], required := [] }

/-- C8 counterexample: with an empty link list, the produced record has no
references field at all (`ObjectReference` is absent), not a references
field equal to the empty rendering of the link list. -/
theorem c8_counterexample :
    Except.map MispRecord.objectReference (fill_record c8defn "u" [] [] true) =
      .ok none ∧
    (none : Option (List (String × Option String))) ≠ some [] :=
  ⟨rfl, by simp⟩

/-- C8 (amended): the record produced by `_fill_object` carries the
schema's name, category, description and version, the generator's uuid,
and — only when the accumulated link list is non-empty — a references
field equal to that list, one entry per `add_link` call in call order
(`add_link` appends); with no links the references field is absent. -/
theorem c8_record_shell (defn : ObjectDefinition) (uuid : String)
    (links : List (String × Option String)) (values : List (String × AttrValue))
    (strict : Bool) (rec : MispRecord) (vals : List (String × AttrValue))
    (h : fill_object defn uuid links values strict = .ok (rec, vals))
    (st : GenState) (u : String) (c : Option String) :
    rec.name = defn.name ∧ rec.meta_category = defn.meta_category ∧
    rec.uuid = uuid ∧ rec.description = defn.description ∧
    rec.version = defn.version ∧
    (links = [] → rec.objectReference = none) ∧
    (links ≠ [] → rec.objectReference = some links) ∧
    (st.add_link u c).links = st.links ++ [(u, c)] := by
  obtain ⟨-, hn, hm, hu, hd, hv, hr⟩ :=
    fill_object_ok_record defn uuid links values strict rec vals h
  refine ⟨hn, hm, hu, hd, hv, ?_, ?_, rfl⟩
  · intro hL
    rw [hr, if_pos]
    simp [hL]
  · intro hL
    rw [hr, if_neg]
    simp [hL]

def c8run : Except PyErr (MispRecord × List (String × AttrValue)) :=
  fill_object c8defn "u" [("x", some "c")] [] true

def c8rec : MispRecord :=
  match c8run with
  | .ok (r, _) => r
  | .error _ => fallbackRecord

/-- C8 witness at a non-empty link list. -/
theorem c8_record_shell_witness :
    c8rec.uuid = "u" ∧ c8rec.objectReference = some [("x", some "c")] := by
  have h := c8_record_shell c8defn "u" [("x", some "c")] [] true c8rec [] rfl
    ⟨c8defn, "g", []⟩ "t" none
  exact ⟨h.2.2.1, h.2.2.2.2.2.2.1 (by simp)⟩

/-! ### C6 -/

theorem fill_record_ok_fields (defn : ObjectDefinition) (uuid : String)
    (links : List (String × Option String)) (values : List (String × AttrValue))
    (strict : Bool) (rec : MispRecord)
    (h : fill_record defn uuid links values strict = .ok rec) :
    rec.uuid = uuid ∧
    rec.objectReference = (if links.isEmpty then none else some links) := by
  simp only [fill_record] at h
  rcases hf : fill_object defn uuid links values strict with e | p <;> rw [hf] at h
  · simp [Except.map] at h
  · obtain ⟨r, vs⟩ := p
    simp only [Except.map, Except.ok.injEq] at h
    subst h
    obtain ⟨-, -, -, hu, -, -, hr⟩ :=
      fill_object_ok_record defn uuid links values strict r vs hf
    exact ⟨hu, hr⟩

theorem generate_attributes_ok_gen (ext : Externals)
    (peDefn secDefn : ObjectDefinition) (u : String) (sg : Nat → String)
    (pe : PEFileModel) (st : PEState)
    (h : PEObject.generate_attributes ext peDefn secDefn u sg pe = .ok st) :
    st.gen.uuid = u ∧ st.gen.definition = peDefn := by
  simp only [PEObject.generate_attributes] at h
  rcases hload : (if pe.dumpDict.peSections.isEmpty then
      Except.ok ([], [], none)
    else pe_section_loop ext secDefn sg pe.sectionData
      pe.dumpDict.addressOfEntryPoint pe.dumpDict.peSections 0)
    with e | ⟨secs, links, epSec⟩ <;> rw [hload] at h
  · exact absurd h (by simp)
  · simp only [Except.ok.injEq] at h
    subst h
    exact ⟨rfl, rfl⟩

/-- C6: the uuid is fixed at construction and never changes: constructors
store the supplied uuid, `add_link` leaves it alone, every successful
`dump()` stamps the generator's uuid into the record, and repeated dumps
of the same state return identical records. -/
theorem c6_uuid_stable (ext : Externals) (defn : ObjectDefinition)
    (peDefn secDefn : ObjectDefinition) (u : String) (sg : Nat → String)
    (pe : PEFileModel) (fp : String) (data : List (Fin 256)) (st : GenState)
    (u' : String) (c : Option String) (info : PEDumpSection)
    (sdata : List (Fin 256)) (fs : FileState) (ps : PEState)
    (ss : SectionState) (r₁ r₂ : MispRecord) :
    (FileObject.mk ext defn u fp data).gen.uuid = u ∧
    (PESectionObject.mk ext defn u info sdata).gen.uuid = u ∧
    (PEObject.generate_attributes ext peDefn secDefn u sg pe = .ok ps →
      ps.gen.uuid = u) ∧
    (st.add_link u' c).uuid = st.uuid ∧
    (FileObject.add_link fs u' c).gen.uuid = fs.gen.uuid ∧
    (FileObject.dump fs = .ok r₁ → r₁.uuid = fs.gen.uuid) ∧
    (PEObject.dump ps = .ok r₁ → r₁.uuid = ps.gen.uuid) ∧
    (PESectionObject.dump ss = .ok r₁ → r₁.uuid = ss.gen.uuid) ∧
    (FileObject.dump fs = .ok r₁ → FileObject.dump fs = .ok r₂ → r₁ = r₂) := by
  refine ⟨rfl, rfl, ?_, rfl, rfl, ?_, ?_, ?_, ?_⟩
  · intro h
    exact (generate_attributes_ok_gen ext peDefn secDefn u sg pe ps h).1
  · intro h
    exact (fill_record_ok_fields _ _ _ _ _ _ h).1
  · intro h
    exact (fill_record_ok_fields _ _ _ _ _ _ h).1
  · intro h
    exact (fill_record_ok_fields _ _ _ _ _ _ h).1
  · intro h₁ h₂
    rw [h₁] at h₂
    injection h₂

def c6ext : Externals :=
  { md5 := fun _ => "m", sha1 := fun _ => "h1", sha256 := fun _ => "h2",
    sha512 := fun _ => "h5", ssdeep := fun _ => "f", magic := fun _ => "t",
    basename := fun p => p }

def c6fdefn : ObjectDefinition :=
  { name := "file", meta_category := "file", description := "d", version := "1",
    attributes :=
      [("filename", { misp_attribute := "filename", disable_correlation := none,
                      to_ids := none }),
       ("size-in-bytes", { misp_attribute := "size-in-bytes",
                           disable_correlation := some true, to_ids := none })],
    requiredOneOf := [], required := [] }

def c6sdefn : ObjectDefinition :=
  { name := "pe-section", meta_category := "file", description := "d",
    version := "1",
    attributes :=
      [("name", { misp_attribute := "text", disable_correlation := none,
                  to_ids := none }),
       ("size-in-bytes", { misp_attribute := "size-in-bytes",
                           disable_correlation := some true, to_ids := none })],
    requiredOneOf := [], required := [] }

noncomputable def c6fs : FileState := FileObject.mk c6ext c6fdefn "fu" "p" []

noncomputable def c6frec : MispRecord :=
  match FileObject.dump c6fs with
  | .ok r => r
  | .error _ => fallbackRecord

def c6info : PEDumpSection :=
  { name := "t", sizeOfRawData := 0, virtualAddress := 0, miscVirtualSize := 0,
    entropy := 0, md5 := "", sha1 := "", sha256 := "", sha512 := "" }

def c6ss : SectionState := PESectionObject.mk c6ext c6sdefn "su" c6info []

def c6srec : MispRecord :=
  match PESectionObject.dump c6ss with
  | .ok r => r
  | .error _ => fallbackRecord

/-- C6 witness: concrete file and section generators whose dumped records
carry the construction-time uuid. -/
theorem c6_uuid_stable_witness :
    c6frec.uuid = "fu" ∧ c6srec.uuid = "su" := by
  have h1 := c6_uuid_stable c6ext c6fdefn c6fdefn c6sdefn "fu" (fun _ => "x")
    { is_dll := false, is_driver := false, is_exe := false, imphash := "",
      dumpDict := { debugTimeDateStampISO := none, addressOfEntryPoint := none,
                    fileInfo := none, peSections := [] }, sectionData := [] }
    "p" [] ⟨c6fdefn, "g", []⟩ "t" none c6info [] c6fs
    { gen := ⟨c6fdefn, "g", []⟩, pe_type := "", imphash := none,
      compilation_timestamp := none, entrypoint_address := none,
      entrypoint_section := none, original_filename := none,
      internal_filename := none, file_description := none, file_version := none,
      lang_id := none, product_name := none, product_version := none,
      company_name := none, legal_copyright := none, sections := [],
      nb_sections := 0 }
    c6ss c6frec c6frec
  have h2 := c6_uuid_stable c6ext c6fdefn c6fdefn c6sdefn "fu" (fun _ => "x")
    { is_dll := false, is_driver := false, is_exe := false, imphash := "",
      dumpDict := { debugTimeDateStampISO := none, addressOfEntryPoint := none,
                    fileInfo := none, peSections := [] }, sectionData := [] }
    "p" [] ⟨c6fdefn, "g", []⟩ "t" none c6info [] c6fs
    { gen := ⟨c6fdefn, "g", []⟩, pe_type := "", imphash := none,
      compilation_timestamp := none, entrypoint_address := none,
      entrypoint_section := none, original_filename := none,
      internal_filename := none, file_description := none, file_version := none,
      lang_id := none, product_name := none, product_version := none,
      company_name := none, legal_copyright := none, sections := [],
      nb_sections := 0 }
    c6ss c6srec c6srec
  exact ⟨h1.2.2.2.2.2.1 rfl, h2.2.2.2.2.2.2.2.1 rfl⟩

/-! ### Pipeline lemmas for C4, C5 and C9 -/

theorem fill_object_error_shape (defn : ObjectDefinition) (uuid : String)
    (links : List (String × Option String)) (values : List (String × AttrValue))
    (strict : Bool) (e : PyErr)
    (h : fill_object defn uuid links values strict = .error e) :
    (∃ m, e = .invalidMISPObject m) ∨ ∃ k, e = .keyError k := by
  simp only [fill_object] at h
  split at h
  · rcases hv : validate defn values with e' | b <;> rw [hv] at h
    · injection h with h
      exact Or.inl (h ▸ validate_error_shape defn values e' hv)
    · exact Or.inr (fill_object_core_error_shape defn uuid links values e h)
  · exact Or.inr (fill_object_core_error_shape defn uuid links values e h)

theorem fill_record_error_shape (defn : ObjectDefinition) (uuid : String)
    (links : List (String × Option String)) (values : List (String × AttrValue))
    (strict : Bool) (e : PyErr)
    (h : fill_record defn uuid links values strict = .error e) :
    (∃ m, e = .invalidMISPObject m) ∨ ∃ k, e = .keyError k := by
  simp only [fill_record] at h
  rcases hf : fill_object defn uuid links values strict with e' | p <;> rw [hf] at h
  · simp only [Except.map] at h
    injection h with h
    exact h ▸ fill_object_error_shape defn uuid links values strict e' hf
  · obtain ⟨r, vs⟩ := p
    simp [Except.map] at h

theorem pe_section_loop_error_shape (ext : Externals) (secDefn : ObjectDefinition)
    (sg : Nat → String) (sdata : List (List (Fin 256))) (epAddr : Option Nat) :
    ∀ (sections : List PEDumpSection) (pos : Nat) (e : PyErr),
    pe_section_loop ext secDefn sg sdata epAddr sections pos = .error e →
    e = .attributeError "entrypoint_address" := by
  intro sections
  induction sections with
  | nil => intro pos e h; simp [pe_section_loop] at h
  | cons s rest ih =>
    intro pos e h
    simp only [pe_section_loop] at h
    rcases epAddr with _ | ea
    · injection h with h; exact h.symm
    · rcases hr : pe_section_loop ext secDefn sg sdata (some ea) rest (pos + 1)
        with e' | ⟨secs, links, ep⟩ <;> rw [hr] at h
      · injection h with h; exact h ▸ ih (pos + 1) e' hr
      · exact absurd h (by simp)

theorem pe_section_loop_ok_spec (ext : Externals) (secDefn : ObjectDefinition)
    (sg : Nat → String) (sdata : List (List (Fin 256))) (epAddr : Option Nat) :
    ∀ (sections : List PEDumpSection) (pos : Nat)
      (secs : List SectionState) (links : List (String × Option String))
      (ep : Option (String × Nat)),
    pe_section_loop ext secDefn sg sdata epAddr sections pos =
      .ok (secs, links, ep) →
    secs.length = sections.length ∧ links.length = sections.length ∧
    (∀ i (hi : i < links.length), links.get ⟨i, hi⟩ =
      (sg (pos + i), some ("Section " ++ toString (pos + i) ++ " of PE"))) ∧
    (∀ i (hi : i < secs.length), (secs.get ⟨i, hi⟩).gen.uuid = sg (pos + i)) := by
  intro sections
  induction sections with
  | nil =>
    intro pos secs links ep h
    simp only [pe_section_loop, Except.ok.injEq, Prod.mk.injEq] at h
    obtain ⟨h1, h2, h3⟩ := h
    subst h1; subst h2
    exact ⟨rfl, rfl, fun i hi => absurd hi (by simp), fun i hi => absurd hi (by simp)⟩
  | cons s rest ih =>
    intro pos secs links ep h
    simp only [pe_section_loop] at h
    rcases epAddr with _ | ea
    · exact absurd h (by simp)
    · rcases hr : pe_section_loop ext secDefn sg sdata (some ea) rest (pos + 1)
        with e' | ⟨secs', links', ep'⟩ <;> rw [hr] at h
      · exact absurd h (by simp)
      · simp only [Except.ok.injEq, Prod.mk.injEq] at h
        obtain ⟨h1, h2, h3⟩ := h
        subst h1; subst h2
        obtain ⟨ih1, ih2, ih3, ih4⟩ := ih (pos + 1) secs' links' ep' hr
        refine ⟨by simp [ih1], by simp [ih2], ?_, ?_⟩
        · intro i hi
          match i with
          | 0 => rfl
          | j + 1 =>
            have hj : j < links'.length := by
              simpa using Nat.lt_of_succ_lt_succ (by simpa using hi)
            have := ih3 j hj
            simp only [List.get_cons_succ]
            rw [show pos + (j + 1) = pos + 1 + j by omega]
            exact this
        · intro i hi
          match i with
          | 0 => rfl
          | j + 1 =>
            have hj : j < secs'.length := by
              simpa using Nat.lt_of_succ_lt_succ (by simpa using hi)
            have := ih4 j hj
            simp only [List.get_cons_succ]
            rw [show pos + (j + 1) = pos + 1 + j by omega]
            exact this

theorem generate_attributes_ok_spec (ext : Externals)
    (peDefn secDefn : ObjectDefinition) (u : String) (sg : Nat → String)
    (pe : PEFileModel) (st : PEState)
    (h : PEObject.generate_attributes ext peDefn secDefn u sg pe = .ok st) :
    st.gen.uuid = u ∧ st.gen.definition = peDefn ∧
    st.sections.length = pe.dumpDict.peSections.length ∧
    st.gen.links.length = pe.dumpDict.peSections.length ∧
    (∀ i (hi : i < st.gen.links.length), st.gen.links.get ⟨i, hi⟩ =
      (sg i, some ("Section " ++ toString i ++ " of PE"))) ∧
    (∀ i (hi : i < st.sections.length),
      (st.sections.get ⟨i, hi⟩).gen.uuid = sg i) ∧
    st.nb_sections = st.sections.length := by
  simp only [PEObject.generate_attributes] at h
  by_cases hE : pe.dumpDict.peSections.isEmpty = true
  · rw [if_pos hE] at h
    simp only [Except.ok.injEq] at h
    subst h
    have : pe.dumpDict.peSections = [] := by simpa [List.isEmpty_iff] using hE
    refine ⟨rfl, rfl, by simp [this], by simp [this], ?_, ?_, rfl⟩
    · intro i hi; exact absurd hi (by simp)
    · intro i hi; exact absurd hi (by simp)
  · rw [if_neg hE] at h
    rcases hl : pe_section_loop ext secDefn sg pe.sectionData
        pe.dumpDict.addressOfEntryPoint pe.dumpDict.peSections 0
      with e | ⟨secs, links, epSec⟩ <;> rw [hl] at h
    · exact absurd h (by simp)
    · simp only [Except.ok.injEq] at h
      subst h
      obtain ⟨h1, h2, h3, h4⟩ := pe_section_loop_ok_spec ext secDefn sg
        pe.sectionData pe.dumpDict.addressOfEntryPoint pe.dumpDict.peSections 0
        secs links epSec hl
      refine ⟨rfl, rfl, h1, h2, ?_, ?_, rfl⟩
      · intro i hi
        have := h3 i hi
        rwa [Nat.zero_add] at this
      · intro i hi
        have := h4 i hi
        rwa [Nat.zero_add] at this

theorem dump_sections_error_shape :
    ∀ (ss : List SectionState) (e : PyErr), dump_sections ss = .error e →
    (∃ m, e = .invalidMISPObject m) ∨ ∃ k, e = .keyError k := by
  intro ss
  induction ss with
  | nil => intro e h; simp [dump_sections] at h
  | cons s rest ih =>
    intro e h
    simp only [dump_sections] at h
    rcases hd : PESectionObject.dump s with e' | r <;> rw [hd] at h
    · injection h with h
      exact h ▸ fill_record_error_shape _ _ _ _ _ e' hd
    · rcases hr : dump_sections rest with e' | rs <;> rw [hr] at h
      · injection h with h
        exact h ▸ ih e' hr
      · exact absurd h (by simp)

theorem dump_sections_ok_spec :
    ∀ (ss : List SectionState) (rs : List MispRecord),
    dump_sections ss = .ok rs →
    rs.length = ss.length ∧
    ∀ i (hi : i < rs.length) (hi' : i < ss.length),
      (rs.get ⟨i, hi⟩).uuid = (ss.get ⟨i, hi'⟩).gen.uuid := by
  intro ss
  induction ss with
  | nil =>
    intro rs h
    simp only [dump_sections, Except.ok.injEq] at h
    subst h
    exact ⟨rfl, fun i hi _ => absurd hi (by simp)⟩
  | cons s rest ih =>
    intro rs h
    simp only [dump_sections] at h
    rcases hd : PESectionObject.dump s with e' | r <;> rw [hd] at h
    · exact absurd h (by simp)
    · rcases hr : dump_sections rest with e' | rs' <;> rw [hr] at h
      · exact absurd h (by simp)
      · simp only [Except.ok.injEq] at h
        subst h
        obtain ⟨ih1, ih2⟩ := ih rs' hr
        refine ⟨by simp [ih1], ?_⟩
        intro i hi hi'
        match i with
        | 0 => exact (fill_record_ok_fields _ _ _ _ _ _ hd).1
        | j + 1 =>
          have hj : j < rs'.length := by
            simpa using Nat.lt_of_succ_lt_succ (by simpa using hi)
          have hj' : j < rest.length := by
            simpa using Nat.lt_of_succ_lt_succ (by simpa using hi')
          simpa using ih2 j hj hj'

theorem generate_attributes_error_shape (ext : Externals)
    (peDefn secDefn : ObjectDefinition) (u : String) (sg : Nat → String)
    (pe : PEFileModel) (e : PyErr)
    (h : PEObject.generate_attributes ext peDefn secDefn u sg pe = .error e) :
    e = .attributeError "entrypoint_address" := by
  simp only [PEObject.generate_attributes] at h
  rcases hl : (if pe.dumpDict.peSections.isEmpty = true then
      (.ok ([], [], none) : Except PyErr (List SectionState ×
        List (String × Option String) × Option (String × Nat)))
    else pe_section_loop ext secDefn sg pe.sectionData
      pe.dumpDict.addressOfEntryPoint pe.dumpDict.peSections 0)
    with e' | t <;> rw [hl] at h
  · injection h with h
    subst h
    by_cases hE : pe.dumpDict.peSections.isEmpty = true
    · rw [if_pos hE] at hl
      exact absurd hl (by simp)
    · rw [if_neg hE] at hl
      exact pe_section_loop_error_shape ext secDefn sg pe.sectionData
        pe.dumpDict.addressOfEntryPoint pe.dumpDict.peSections 0 e' hl
  · obtain ⟨a, b, c⟩ := t
    exact absurd h (by simp)

theorem make_objects_try_error_shape (ext : Externals)
    (peDefn secDefn : ObjectDefinition) (peUuid : String) (sg : Nat → String)
    (misp_file : FileState) (pe : PEFileModel) (e : PyErr)
    (h : make_objects_try ext peDefn secDefn peUuid sg misp_file (some pe) =
      .error e) : e ≠ .peFormatError := by
  simp only [make_objects_try, PEObject.mk] at h
  split at h
  · rename_i e'' hg
    have he : e'' = e := by injection h
    rw [← he, generate_attributes_error_shape ext peDefn secDefn peUuid sg pe e'' hg]
    simp
  · rename_i st hg
    split at h
    · rename_i e'' hfd
      have he : e'' = e := by injection h
      rw [← he]
      rcases fill_record_error_shape _ _ _ _ _ e'' hfd with ⟨m, rfl⟩ | ⟨k, rfl⟩ <;>
        simp
    · rename_i fo hfd
      split at h
      · rename_i e'' hpd
        have he : e'' = e := by injection h
        rw [← he]
        rcases fill_record_error_shape _ _ _ _ _ e'' hpd with ⟨m, rfl⟩ | ⟨k, rfl⟩ <;>
          simp
      · rename_i po hpd
        split at h
        · rename_i e'' hsd
          have he : e'' = e := by injection h
          rw [← he]
          rcases dump_sections_error_shape _ e'' hsd
            with ⟨m, rfl⟩ | ⟨k, rfl⟩ <;> simp
        · exact absurd h (by simp)

/-! ### C4 -/

/-- C4: `make_objects` catches exactly one error condition — the
executable-parse failure raised while constructing the PE generator — and
then falls back to dumping and returning the File record alone, with the
Executable record and the section list both absent; with a successfully
parsed image the pipeline equals its `try:` block verbatim, whose errors
(`InvalidMISPObject`, unknown attribute key, `AttributeError`) are never
`PEFormatError`, so they propagate to the caller unmodified with no
partial record emission. -/
theorem c4_single_recoverable_error (ext : Externals)
    (fileDefn peDefn secDefn : ObjectDefinition) (fileUuid peUuid : String)
    (secUuid : Nat → String) (fp : String) (data : List (Fin 256))
    (parse : Option PEFileModel) :
    (parse = none →
      make_objects ext fileDefn peDefn secDefn fileUuid peUuid secUuid
          fp data parse =
        (match FileObject.dump (FileObject.mk ext fileDefn fileUuid fp data) with
         | .error e => .error e
         | .ok fo => .ok (fo, none, none))) ∧
    (∀ pe, parse = some pe →
      make_objects ext fileDefn peDefn secDefn fileUuid peUuid secUuid
          fp data parse =
        make_objects_try ext peDefn secDefn peUuid secUuid
          (FileObject.mk ext fileDefn fileUuid fp data) parse) := by
  constructor
  · rintro rfl
    rfl
  · rintro pe rfl
    rcases htry : make_objects_try ext peDefn secDefn peUuid secUuid
        (FileObject.mk ext fileDefn fileUuid fp data) (some pe) with e | r
    · have hne := make_objects_try_error_shape ext peDefn secDefn peUuid secUuid
        (FileObject.mk ext fileDefn fileUuid fp data) pe e htry
      simp only [make_objects]
      rw [htry]
      cases e with
      | invalidMISPObject m => rfl
      | keyError k => rfl
      | peFormatError => exact absurd rfl hne
      | attributeError n => rfl
    · simp only [make_objects]
      rw [htry]

/-- C4 witness: a failing parse yields the file-only fallback. -/
theorem c4_single_recoverable_error_witness :
    make_objects c6ext c6fdefn c6fdefn c6sdefn "fu" "pu" (fun _ => "su")
        "p" [] none =
      (match FileObject.dump (FileObject.mk c6ext c6fdefn "fu" "p" []) with
       | .error e => .error e
       | .ok fo => .ok (fo, none, none)) :=
  (c4_single_recoverable_error c6ext c6fdefn c6fdefn c6sdefn "fu" "pu"
    (fun _ => "su") "p" [] none).1 rfl

/-! ### C5 -/

/-- C5: whenever `make_objects` returns the File+Executable+Sections
triple, the File record's reference list is exactly one entry targeting
the Executable generator's uuid with comment `PE indicators`, and the
Executable record's reference list has one entry per parsed section, the
i-th targeting the i-th Section generator's uuid with comment
`Section i of PE`; the section records carry those same uuids. -/
theorem c5_reference_linking (ext : Externals)
    (fileDefn peDefn secDefn : ObjectDefinition) (fileUuid peUuid : String)
    (secUuid : Nat → String) (fp : String) (data : List (Fin 256))
    (parse : Option PEFileModel) (pe : PEFileModel) (fo po : MispRecord)
    (sos : List MispRecord)
    (hp : parse = some pe)
    (h : make_objects ext fileDefn peDefn secDefn fileUuid peUuid secUuid
        fp data parse = .ok (fo, some po, some sos)) :
    fo.objectReference = some [(peUuid, some "PE indicators")] ∧
    (po.objectReference.getD []).length = pe.dumpDict.peSections.length ∧
    (∀ i (hi : i < (po.objectReference.getD []).length),
      (po.objectReference.getD []).get ⟨i, hi⟩ =
        (secUuid i, some ("Section " ++ toString i ++ " of PE"))) ∧
    sos.length = pe.dumpDict.peSections.length ∧
    (∀ i (hi : i < sos.length), (sos.get ⟨i, hi⟩).uuid = secUuid i) := by
  subst hp
  have htry : make_objects_try ext peDefn secDefn peUuid secUuid
      (FileObject.mk ext fileDefn fileUuid fp data) (some pe) =
      .ok (fo, some po, some sos) := by
    simp only [make_objects] at h
    split at h
    · split at h
      · exact absurd h (by simp)
      · simp only [Except.ok.injEq, Prod.mk.injEq] at h
        exact absurd h.2.1 (by simp)
    · exact absurd h (by simp)
    · rename_i r heq
      exact heq.trans h
  simp only [make_objects_try, PEObject.mk] at htry
  split at htry
  · exact absurd htry (by simp)
  · rename_i st hg
    split at htry
    · exact absurd htry (by simp)
    · rename_i fo' hfd
      split at htry
      · exact absurd htry (by simp)
      · rename_i po' hpd
        split at htry
        · exact absurd htry (by simp)
        · rename_i sos' hsd
          simp only [Except.ok.injEq, Prod.mk.injEq, Option.some.injEq] at htry
          obtain ⟨hfo, hpo, hsos⟩ := htry
          subst hfo; subst hpo; subst hsos
          obtain ⟨hu, hdefn, hslen, hllen, hlget, hsuuid, hnb⟩ :=
            generate_attributes_ok_spec ext peDefn secDefn peUuid secUuid pe st hg
          obtain ⟨hfu, hfref⟩ := fill_record_ok_fields _ _ _ _ _ _ hfd
          obtain ⟨hpu, hpref⟩ := fill_record_ok_fields _ _ _ _ _ _ hpd
          have hrefl : po'.objectReference.getD [] = st.gen.links := by
            rw [hpref]
            by_cases hE : st.gen.links.isEmpty = true
            · rw [if_pos hE]
              have : st.gen.links = [] := by simpa [List.isEmpty_iff] using hE
              simp [this]
            · rw [if_neg hE]
              rfl
          obtain ⟨hrs1, hrs2⟩ := dump_sections_ok_spec st.sections sos' hsd
          refine ⟨?_, ?_, ?_, ?_, ?_⟩
          · rw [hfref]
            simp only [FileObject.add_link, GenState.add_link, FileObject.mk]
            simp [hu]
          · rw [hrefl, hllen]
          · intro i
            rw [hrefl]
            intro hi
            exact hlget i hi
          · rw [hrs1, hslen]
          · intro i hi
            have hi' : i < st.sections.length := hrs1 ▸ hi
            rw [hrs2 i hi hi']
            exact hsuuid i hi'

def c5pdefn : ObjectDefinition :=
  { name := "pe", meta_category := "file", description := "d", version := "1",
    attributes :=
      [("type", { misp_attribute := "text", disable_correlation := some true,
                  to_ids := none }),
       ("imphash", { misp_attribute := "imphash", disable_correlation := none,
                     to_ids := none }),
       ("entrypoint-address", { misp_attribute := "text",
                                disable_correlation := none, to_ids := none }),
       ("number-sections", { misp_attribute := "counter",
                             disable_correlation := some true, to_ids := none })],
    requiredOneOf := [], required := [] }

def c5pe : PEFileModel :=
  { is_dll := false, is_driver := false, is_exe := true, imphash := "ih",
    dumpDict := { debugTimeDateStampISO := none, addressOfEntryPoint := some 0,
                  fileInfo := none, peSections := [c6info] },
    sectionData := [[]] }

noncomputable def c5run :
    Except PyErr (MispRecord × Option MispRecord × Option (List MispRecord)) :=
  make_objects c6ext c6fdefn c5pdefn c6sdefn "fu" "pu"
    (fun i => "su" ++ toString i) "p" [] (some c5pe)

noncomputable def c5fo : MispRecord :=
  match c5run with
  | .ok (r, _, _) => r
  | _ => fallbackRecord

noncomputable def c5po : MispRecord :=
  match c5run with
  | .ok (_, some r, _) => r
  | _ => fallbackRecord

noncomputable def c5sos : List MispRecord :=
  match c5run with
  | .ok (_, _, some l) => l
  | _ => []

/-- C5 witness: a one-section image produces the expected references. -/
theorem c5_reference_linking_witness :
    c5fo.objectReference = some [("pu", some "PE indicators")] ∧
    (c5po.objectReference.getD []).length = 1 ∧
    c5sos.length = 1 := by
  have h := c5_reference_linking c6ext c6fdefn c5pdefn c6sdefn "fu" "pu"
    (fun i => "su" ++ toString i) "p" [] (some c5pe) c5pe c5fo c5po c5sos rfl rfl
  exact ⟨h.1, h.2.1, h.2.2.2.1⟩

/-! ### C9 -/

/-- C9 (implicit): the per-section classification test reads
`self.entrypoint_address` unconditionally, so `generate_attributes` is
total exactly when an image with a `PE Sections` entry also yields an
`OPTIONAL_HEADER` entry-point address; with sections but no extracted
entry-point address the section loop raises `AttributeError` instead of
silently omitting the entrypoint-section attribute. -/
theorem c9_entrypoint_attribute_error (ext : Externals)
    (peDefn secDefn : ObjectDefinition) (u : String) (sg : Nat → String)
    (pe : PEFileModel) :
    (pe.dumpDict.peSections ≠ [] → pe.dumpDict.addressOfEntryPoint = none →
      PEObject.generate_attributes ext peDefn secDefn u sg pe =
        .error (.attributeError "entrypoint_address")) ∧
    ((pe.dumpDict.addressOfEntryPoint ≠ none ∨ pe.dumpDict.peSections = []) →
      ∃ st, PEObject.generate_attributes ext peDefn secDefn u sg pe = .ok st) := by
  constructor
  · intro hne hep
    have hE : ¬ pe.dumpDict.peSections.isEmpty = true := by
      simpa [List.isEmpty_iff] using hne
    simp only [PEObject.generate_attributes]
    rw [if_neg hE, hep]
    rcases hps : pe.dumpDict.peSections with _ | ⟨s, rest⟩
    · exact absurd hps hne
    · rfl
  · intro hok
    rcases hok with hep | hps
    · rcases hE : pe.dumpDict.addressOfEntryPoint with _ | ea
      · exact absurd hE hep
      · have hloop : ∀ (sections : List PEDumpSection) (pos : Nat),
            ∃ t, pe_section_loop ext secDefn sg pe.sectionData (some ea)
              sections pos = .ok t := by
          intro sections
          induction sections with
          | nil => intro pos; exact ⟨([], [], none), rfl⟩
          | cons s rest ih =>
            intro pos
            obtain ⟨⟨secs, links, ep⟩, ht⟩ := ih (pos + 1)
            refine ⟨(PESectionObject.mk ext secDefn (sg pos) s
                (pe.sectionData.getD pos []) :: secs,
              ((PESectionObject.mk ext secDefn (sg pos) s
                (pe.sectionData.getD pos [])).gen.uuid,
                some ("Section " ++ toString pos ++ " of PE")) :: links,
              ep.orElse (fun _ =>
                if ea ≥ s.virtualAddress ∧
                    ea < s.virtualAddress + s.miscVirtualSize then
                  some (s.name, pos)
                else none)), ?_⟩
            simp only [pe_section_loop]
            rw [ht]
        by_cases hE2 : pe.dumpDict.peSections.isEmpty = true
        · exact ⟨_, by
            simp only [PEObject.generate_attributes]
            rw [if_pos hE2]⟩
        · obtain ⟨⟨secs, links, ep⟩, ht⟩ := hloop pe.dumpDict.peSections 0
          exact ⟨_, by
            simp only [PEObject.generate_attributes]
            rw [if_neg hE2, hE, ht]⟩
    · exact ⟨_, by
        simp only [PEObject.generate_attributes]
        rw [if_pos (by simp [hps])]⟩

def c9pe : PEFileModel :=
  { is_dll := false, is_driver := false, is_exe := false, imphash := "",
    dumpDict := { debugTimeDateStampISO := none, addressOfEntryPoint := none,
                  fileInfo := none, peSections := [c6info] },
    sectionData := [[]] }

/-- C9 witness: one section, no extracted entry-point address. -/
theorem c9_entrypoint_attribute_error_witness :
    PEObject.generate_attributes c6ext c5pdefn c6sdefn "pu" (fun _ => "su") c9pe =
      .error (.attributeError "entrypoint_address") :=
  (c9_entrypoint_attribute_error c6ext c5pdefn c6sdefn "pu" (fun _ => "su")
    c9pe).1 (by simp [c9pe]) rfl

/-! ### C7 -/

/-- C7: the Shannon entropy computed by `FileObject.__entropy_H` lies in
the closed interval `[0, 8]` bits per byte for every non-empty buffer, and
equals `0` for the empty buffer. -/
theorem c7_entropy_range (data : List (Fin 256)) :
    (data ≠ [] → 0 ≤ entropy_H data ∧ entropy_H data ≤ 8) ∧
    entropy_H ([] : List (Fin 256)) = 0 := by
  refine ⟨?_, by simp [entropy_H]⟩
  intro hne
  have hn : 0 < data.length := List.length_pos.mpr hne
  have hnR : (0 : ℝ) < (data.length : ℝ) := by exact_mod_cast hn
  have hpos : ∀ x ∈ data.toFinset,
      0 < ((data.count x : ℝ) / (data.length : ℝ)) := by
    intro x hx
    have hc : 0 < data.count x := List.count_pos_iff.mpr (List.mem_toFinset.mp hx)
    exact div_pos (by exact_mod_cast hc) hnR
  have hle1 : ∀ x ∈ data.toFinset,
      ((data.count x : ℝ) / (data.length : ℝ)) ≤ 1 := by
    intro x hx
    rw [div_le_one hnR]
    exact_mod_cast List.count_le_length x data
  simp only [entropy_H, if_neg (Nat.pos_iff_ne_zero.mp hn)]
  constructor
  · apply Finset.sum_nonneg
    intro x hx
    have h1 := hpos x hx
    have h2 := hle1 x hx
    have hlog : Real.logb 2 ((data.count x : ℝ) / (data.length : ℝ)) ≤ 0 :=
      Real.logb_nonpos one_lt_two h1.le h2
    have hmul : ((data.count x : ℝ) / (data.length : ℝ)) *
        Real.logb 2 ((data.count x : ℝ) / (data.length : ℝ)) ≤ 0 :=
      mul_nonpos_of_nonneg_of_nonpos h1.le hlog
    linarith
  · have hlog2 : (0 : ℝ) < Real.log 2 := Real.log_pos one_lt_two
    have key : ∀ x ∈ data.toFinset,
        -(((data.count x : ℝ) / (data.length : ℝ)) *
          Real.log ((data.count x : ℝ) / (data.length : ℝ))) ≤
        ((data.count x : ℝ) / (data.length : ℝ)) * Real.log 256 +
          (1 / 256 - ((data.count x : ℝ) / (data.length : ℝ))) := by
      intro x hx
      set q := ((data.count x : ℝ) / (data.length : ℝ)) with hq
      have hq0 : 0 < q := hpos x hx
      have h1 : Real.log (1 / (256 * q)) ≤ 1 / (256 * q) - 1 :=
        Real.log_le_sub_one_of_pos (by positivity)
      have h2 : Real.log (1 / (256 * q)) = -(Real.log 256 + Real.log q) := by
        rw [one_div, Real.log_inv,
          Real.log_mul (by norm_num) (ne_of_gt hq0)]
      have h3 : q * (1 / (256 * q)) = 1 / 256 := by
        field_simp
        ring
      have h4 := mul_le_mul_of_nonneg_left h1 hq0.le
      rw [h2] at h4
      have h5 : q * (1 / (256 * q) - 1) = 1 / 256 - q := by
        rw [mul_sub, h3, mul_one]
      rw [h5] at h4
      have h6 : q * -(Real.log 256 + Real.log q) =
          -(q * Real.log q) - q * Real.log 256 := by ring
      rw [h6] at h4
      linarith
    have hsum_nat : ∑ x in data.toFinset, data.count x = data.length := by
      have h := Multiset.toFinset_sum_count_eq (data : Multiset (Fin 256))
      simp only [Multiset.coe_count, Multiset.coe_card] at h
      exact h
    have hsum_p : ∑ x in data.toFinset,
        ((data.count x : ℝ) / (data.length : ℝ)) = 1 := by
      have hc : ∑ x in data.toFinset, ((data.count x : ℝ)) = (data.length : ℝ) := by
        rw [← Nat.cast_sum, hsum_nat]
      rw [← Finset.sum_div, hc, div_self (ne_of_gt hnR)]
    have hcard : (data.toFinset.card : ℝ) ≤ 256 := by
      have h1 := Finset.card_le_univ data.toFinset
      have h2 : Fintype.card (Fin 256) = 256 := Fintype.card_fin 256
      exact_mod_cast h2 ▸ h1
    have hmain : ∑ x in data.toFinset,
        -(((data.count x : ℝ) / (data.length : ℝ)) *
          Real.log ((data.count x : ℝ) / (data.length : ℝ))) ≤
        Real.log 256 := by
      have hsplit : ∑ x in data.toFinset,
          (((data.count x : ℝ) / (data.length : ℝ)) * Real.log 256 +
            (1 / 256 - ((data.count x : ℝ) / (data.length : ℝ)))) =
          1 * Real.log 256 + ((data.toFinset.card : ℝ) * (1 / 256) - 1) := by
        rw [Finset.sum_add_distrib, Finset.sum_sub_distrib, ← Finset.sum_mul,
          hsum_p, Finset.sum_const, nsmul_eq_mul]
      have hstep := Finset.sum_le_sum key
      rw [hsplit] at hstep
      have hfrac : (data.toFinset.card : ℝ) * (1 / 256) ≤ 1 := by linarith
      linarith
    have hconv : ∑ x in data.toFinset,
        -(((data.count x : ℝ) / (data.length : ℝ)) *
          Real.logb 2 ((data.count x : ℝ) / (data.length : ℝ))) =
        (∑ x in data.toFinset,
          -(((data.count x : ℝ) / (data.length : ℝ)) *
            Real.log ((data.count x : ℝ) / (data.length : ℝ)))) / Real.log 2 := by
      rw [Finset.sum_div]
      apply Finset.sum_congr rfl
      intro x hx
      simp only [Real.logb]
      ring
    rw [hconv, div_le_iff₀ hlog2]
    have h256 : Real.log 256 = 8 * Real.log 2 := by
      rw [show (256 : ℝ) = 2 ^ (8 : ℕ) by norm_num, Real.log_pow]
      push_cast
      ring
    linarith

/-- C7 witness: a concrete one-byte buffer. -/
theorem c7_entropy_range_witness :
    (0 ≤ entropy_H [(0 : Fin 256)] ∧ entropy_H [(0 : Fin 256)] ≤ 8) ∧
    entropy_H ([] : List (Fin 256)) = 0 :=
  ⟨(c7_entropy_range [(0 : Fin 256)]).1 (by simp),
   (c7_entropy_range []).2⟩

end R2Graphity
